import Mathlib

/-!
Verification of the command policy validator in `server_validation.py`
(`mcpServer_as_gatekeeper`).

The development shallowly embeds:
* the static policy rule table `POLICY_RULES` (ordered list of policies,
  each an ordered list of regular-expression patterns plus a message),
* the regular-expression search semantics used by the source
  (`re.search(pattern, command, re.IGNORECASE)`: unanchored, case-insensitive),
* the stateful validator (`CommandValidator.validate_command`, `get_stats`),
* the tool-call facade (`call_tool` with its four tool names).

Python dicts iterate in insertion order, so the rule table is embedded as an
ordered list.  Each pattern is kept both as its literal source text (`raw`,
what the source reports in `pattern_matched`) and as a hand-translated
syntax tree (`re`) matched by the engine below.
-/

set_option autoImplicit false

namespace Gatekeeper

/-- Abstract syntax for the fragment of Python regular expressions appearing
in `POLICY_RULES`: literals, `.`, the class `\s`, the zero-width assertion
`\b`, concatenation, alternation `|`, and `*` (with `+` as a derived form).
An empty group `()` is `eps`. -/
inductive Regex where
  | eps  : Regex
  | lit  : Char → Regex
  | any  : Regex
  | ws   : Regex
  | wb   : Regex
  | seq  : Regex → Regex → Regex
  | alt  : Regex → Regex → Regex
  | star : Regex → Regex
deriving DecidableEq, Repr

/-- Python `\s` (ASCII part): space, tab, newline, carriage return,
vertical tab, form feed. -/
def isPySpace (c : Char) : Bool :=
  c = ' ' || c = '\t' || c = '\n' || c = '\r' || c = '\x0b' || c = '\x0c'

/-- Python `\w` characters, used by the `\b` word-boundary assertion. -/
def isWordChar (c : Char) : Bool :=
  c.isAlphanum || c = '_'

/-- Assertion `\b` holds at a position iff exactly one of the adjacent characters is a
word character; `prev` is the character before the position (`none` at the
start of the string), `s` the remaining input. -/
def atWordBoundary (prev : Option Char) (s : List Char) : Bool :=
  let left := match prev with | some c => isWordChar c | none => false
  let right := match s with | c :: _ => isWordChar c | [] => false
  left != right

/-- Backtracking matcher.  `mtch fuel r prev s` returns every way `r` can
match a prefix of `s`, as pairs of (character preceding the rest, rest of the
input).  `prev` carries the character to the left of the current position so
that `\b` can be decided.  Literal comparison is case-insensitive, embedding
`re.IGNORECASE`.  `star` skips iterations that consume nothing (they never
add a reachable suffix).  Recursion is structural on `fuel`, spending one
unit per step; `reSearch` below supplies fuel exceeding the deepest possible
call chain, so the `fuel = 0` branch is never taken and the matcher is an
exact decision procedure for the embedded patterns. -/
def mtch : Nat → Regex → Option Char → List Char → List (Option Char × List Char)
  | 0, _, _, _ => []
  | fuel + 1, r, p, s =>
    match r with
    | .eps => [(p, s)]
    | .lit c =>
      match s with
      | [] => []
      | d :: rest => if c.toLower = d.toLower then [(some d, rest)] else []
    | .any =>
      match s with
      | [] => []
      | d :: rest => if d = '\n' then [] else [(some d, rest)]
    | .ws =>
      match s with
      | [] => []
      | d :: rest => if isPySpace d then [(some d, rest)] else []
    | .wb => if atWordBoundary p s then [(p, s)] else []
    | .seq r₁ r₂ => (mtch fuel r₁ p s).flatMap fun q => mtch fuel r₂ q.1 q.2
    | .alt r₁ r₂ => mtch fuel r₁ p s ++ mtch fuel r₂ p s
    | .star r₁ =>
      (p, s) :: (((mtch fuel r₁ p s).filter fun q => q.2.length < s.length).flatMap
        fun q => mtch fuel (.star r₁) q.1 q.2)

/-- Number of syntax-tree nodes of a regex, used to size the fuel. -/
def Regex.size : Regex → Nat
  | .eps | .lit _ | .any | .ws | .wb => 1
  | .seq r₁ r₂ | .alt r₁ r₂ => r₁.size + r₂.size + 1
  | .star r => r.size + 1

/-- Try to match `r` at the current position or at any later one. -/
def searchAux (fuel : Nat) (r : Regex) : Option Char → List Char → Bool
  | p, [] => !(mtch fuel r p []).isEmpty
  | p, c :: rest => !(mtch fuel r p (c :: rest)).isEmpty || searchAux fuel r (some c) rest

/-- Embedding of `re.search(pattern, s, re.IGNORECASE) is not None`:
unanchored search anywhere in `s`.  Every step of `mtch` descends into a
strict subterm of the regex or, between the body and the recursive tail of a
`star`, consumes at least one input character, so call chains are shorter
than `(length + 2) * (size + 2)` and the fuel never runs out. -/
def reSearch (r : Regex) (s : String) : Bool :=
  searchAux ((s.data.length + 2) * (r.size + 2)) r none s.data

/-- Concatenation of a list of regexes. -/
def rseq (rs : List Regex) : Regex :=
  rs.foldr Regex.seq .eps

/-- A string of literal characters. -/
def rstr (s : String) : Regex :=
  rseq (s.data.map Regex.lit)

/-- Quantifier `r+` as `r r*`. -/
def rplus (r : Regex) : Regex :=
  .seq r (.star r)

/-- One pattern of a policy: its literal text as written in the source
(reported in `pattern_matched`) and its parsed form. -/
structure PatternDef where
  raw : String
  re : Regex
deriving DecidableEq, Repr

/-- One policy of `POLICY_RULES`: identifier, ordered patterns, message. -/
structure Policy where
  name : String
  patterns : List PatternDef
  message : String
deriving DecidableEq, Repr

/-- The static rule table `POLICY_RULES` of `server_validation.py`, in
declaration order.  The fork-bomb pattern contains an unescaped `|`, so
Python parses it as the alternation of two branches, with `(` `)` an empty
group and `\x7b` `\x7d` literal braces; the translation mirrors that parse. -/
def POLICY_RULES : List Policy := [
  { name := "destructive_commands",
    patterns := [
      ⟨"\\brm\\s+-rf\\s+/", rseq [.wb, rstr "rm", rplus .ws, rstr "-rf", rplus .ws, .lit '/']⟩,
      ⟨"\\brm\\s+-rf\\s+\\*", rseq [.wb, rstr "rm", rplus .ws, rstr "-rf", rplus .ws, .lit '*']⟩,
      ⟨"\\bdd\\s+.*of=/dev/", rseq [.wb, rstr "dd", rplus .ws, .star .any, rstr "of=/dev/"]⟩,
      ⟨"\\bmkfs\\.", rseq [.wb, rstr "mkfs."]⟩,
      ⟨"\\b:()\x7b:|:&\x7d;:",
        .alt (rseq [.wb, rstr ":", .eps, rstr "\x7b:"]) (rstr ":&\x7d;:")⟩,
      ⟨"\\bchmod\\s+-R\\s+777", rseq [.wb, rstr "chmod", rplus .ws, rstr "-R", rplus .ws, rstr "777"]⟩
    ],
    message := "Destructive command blocked by ORG-SEC-001" },
  { name := "network_exfiltration",
    patterns := [
      ⟨"curl\\s+.*\\|\\s*bash", rseq [rstr "curl", rplus .ws, .star .any, .lit '|', .star .ws, rstr "bash"]⟩,
      ⟨"wget\\s+.*\\|\\s*sh", rseq [rstr "wget", rplus .ws, .star .any, .lit '|', .star .ws, rstr "sh"]⟩,
      ⟨"nc\\s+-l", rseq [rstr "nc", rplus .ws, rstr "-l"]⟩,
      ⟨"python.*-m\\s+http\\.server",
        rseq [rstr "python", .star .any, rstr "-m", rplus .ws, rstr "http.server"]⟩
    ],
    message := "Network exfiltration risk blocked by ORG-SEC-002" },
  { name := "system_modification",
    patterns := [
      ⟨"\\bsudo\\s+rm", rseq [.wb, rstr "sudo", rplus .ws, rstr "rm"]⟩,
      ⟨"\\bapt-get\\s+remove", rseq [.wb, rstr "apt-get", rplus .ws, rstr "remove"]⟩,
      ⟨"\\byum\\s+remove", rseq [.wb, rstr "yum", rplus .ws, rstr "remove"]⟩,
      ⟨"\\bsystemctl\\s+stop", rseq [.wb, rstr "systemctl", rplus .ws, rstr "stop"]⟩,
      ⟨"\\bkill\\s+-9\\s+1", rseq [.wb, rstr "kill", rplus .ws, rstr "-9", rplus .ws, rstr "1"]⟩
    ],
    message := "System modification requires approval - ORG-OPS-003" },
  { name := "sensitive_paths",
    patterns := [
      ⟨"/etc/passwd", rstr "/etc/passwd"⟩,
      ⟨"/etc/shadow", rstr "/etc/shadow"⟩,
      ⟨"\\.ssh/id_rsa", rstr ".ssh/id_rsa"⟩,
      ⟨"\\.aws/credentials", rstr ".aws/credentials"⟩,
      ⟨"\\.env", rstr ".env"⟩
    ],
    message := "Access to sensitive files blocked - ORG-SEC-004" }
]

/-- The allowlist `ALLOWED_COMMANDS` of the source (a set; order irrelevant,
only membership could matter — and nothing ever tests membership). -/
def ALLOWED_COMMANDS : List String :=
  ["git", "ls", "cat", "echo", "pwd", "cd", "grep",
   "find", "npm", "yarn", "python", "node", "pip",
   "docker", "kubectl", "terraform", "make", "cargo"]

/-- The result dict of `validate_command`.  The allowed-path dict has no
`pattern_matched` key; that absence is embedded as `none`. -/
structure ValidationResult where
  allowed : Bool
  reason : String
  policy : Option String
  pattern_matched : Option String
deriving DecidableEq, Repr

/-- Status tag of an audit-log entry. -/
inductive AuditStatus where
  | ALLOWED : AuditStatus
  | BLOCKED : AuditStatus
deriving DecidableEq, Repr

/-- One audit-log entry.  Allowed entries carry no `policy` key (`none`). -/
structure AuditEntry where
  command : String
  policy : Option String
  status : AuditStatus
deriving DecidableEq, Repr

/-- The mutable state of a `CommandValidator` instance. -/
structure CommandValidator where
  violation_count : Nat
  audit_log : List AuditEntry
deriving DecidableEq, Repr

/-- Constructor `CommandValidator.__init__`: zero violations, empty log. -/
def CommandValidator.start : CommandValidator :=
  { violation_count := 0, audit_log := [] }

/-- Python `str.strip()` on the ASCII whitespace the model covers: drop
whitespace from the front, then from the back. -/
def stripChars (l : List Char) : List Char :=
  ((l.dropWhile isPySpace).reverse.dropWhile isPySpace).reverse

/-- Embedding of `command.strip()` as performed at the top of `validate_command`. -/
def pyStrip (s : String) : String :=
  ⟨stripChars s.data⟩

/-- Embedding of `command.split()[0] if command.split() else ""`: the first
whitespace-delimited token, or the empty string. -/
def first_word (c : String) : String :=
  ⟨(c.data.dropWhile isPySpace).takeWhile (fun ch => !isPySpace ch)⟩

/-- Embedding of `first_word.split("/")[-1]`, the source's `base_command` — computed by
`validate_command` and then never used. -/
def base_command (c : String) : String :=
  ((first_word c).splitOn "/").getLastD ""

/-- The inner loop of `validate_command`: first pattern of a policy whose
`re.search` against the (stripped) command succeeds, in declared order. -/
def firstMatchIn (c : String) : List PatternDef → Option PatternDef
  | [] => none
  | pd :: rest => if reSearch pd.re c then some pd else firstMatchIn c rest

/-- The outer loop of `validate_command`: first policy (in declaration
order) with a matching pattern, paired with that pattern. -/
def firstPolicyMatch (c : String) : List Policy → Option (Policy × PatternDef)
  | [] => none
  | pol :: rest =>
    match firstMatchIn c pol.patterns with
    | some pd => some (pol, pd)
    | none => firstPolicyMatch c rest

/-- Method `CommandValidator.validate_command`, parameterised by the module-level
allowlist it could read (it reads the global `POLICY_RULES` but, like the
source, never consults the allowlist: the parameter is unused, which is the
formal content of claim C6).  `base_command` is computed and dropped,
mirroring the dead code in the source. -/
def validate_commandWith (_allowlist : List String) (v : CommandValidator)
    (command : String) : ValidationResult × CommandValidator :=
  let c := pyStrip command
  let _base := base_command c
  match firstPolicyMatch c POLICY_RULES with
  | some (pol, pd) =>
    ({ allowed := false, reason := pol.message, policy := some pol.name,
       pattern_matched := some pd.raw },
     { violation_count := v.violation_count + 1,
       audit_log := v.audit_log ++ [{ command := c, policy := some pol.name,
                                      status := .BLOCKED }] })
  | none =>
    ({ allowed := true, reason := "Command passed all policy checks",
       policy := none, pattern_matched := none },
     { violation_count := v.violation_count,
       audit_log := v.audit_log ++ [{ command := c, policy := none,
                                      status := .ALLOWED }] })

/-- Function `validate_command` as the source runs it, against the module globals. -/
def validate_command : CommandValidator → String → ValidationResult × CommandValidator :=
  validate_commandWith ALLOWED_COMMANDS

/-- The stats dict returned by `get_stats`.  `allowed` is Python integer
subtraction, embedded in `Int`. -/
structure Stats where
  total_commands : Nat
  blocked : Nat
  allowed : Int
  recent_log : List AuditEntry
deriving DecidableEq, Repr

/-- Method `CommandValidator.get_stats`; `audit_log[-10:]` is the final
`min 10 len` entries, i.e. `drop (len - 10)`. -/
def get_stats (v : CommandValidator) : Stats :=
  { total_commands := v.audit_log.length,
    blocked := v.violation_count,
    allowed := (v.audit_log.length : Int) - (v.violation_count : Int),
    recent_log := v.audit_log.drop (v.audit_log.length - 10) }

/-- Outcome tag of the `execute_validated_command` payload. -/
inductive ExecStatus where
  | blocked : ExecStatus
  | success : ExecStatus
deriving DecidableEq, Repr

/-- Payload of the `execute_validated_command` tool.  Keys absent from the
respective JSON dict are `none`. -/
structure ExecResult where
  status : ExecStatus
  command : String
  reason : Option String
  policy : Option String
  validation : Option String
  output : Option String
deriving DecidableEq, Repr

/-- The `execute_validated_command` branch of `call_tool`: validate, and on
success return only a simulated-output string — no command is ever run. -/
def execute_validated_command (v : CommandValidator) (command : String) :
    ExecResult × CommandValidator :=
  let r := validate_command v command
  if r.1.allowed = false then
    ({ status := .blocked, command := command, reason := some r.1.reason,
       policy := r.1.policy, validation := none, output := none }, r.2)
  else
    ({ status := .success, command := command, reason := none, policy := none,
       validation := some "passed",
       output := some ("[SIMULATED] Command \x27" ++ command ++ "\x27 would be executed here") },
     r.2)

/-- The structured payloads a tool call can return. -/
inductive ToolOutput where
  | validation : ValidationResult → ToolOutput
  | execution : ExecResult → ToolOutput
  | stats : Stats → ToolOutput
  | policies : List (String × String × Nat) → ToolOutput
deriving DecidableEq, Repr

/-- The `call_tool` dispatcher.  `arguments` models `arguments.get("command", "")`
(`none` when the key is missing).  An unknown tool name raises `ValueError`,
embedded as `Except.error`; the validator state is returned unchanged then. -/
def call_tool (name : String) (arguments : Option String) (v : CommandValidator) :
    Except String ToolOutput × CommandValidator :=
  if name = "validate_command" then
    let command := arguments.getD ""
    let r := validate_command v command
    (Except.ok (ToolOutput.validation r.1), r.2)
  else if name = "execute_validated_command" then
    let command := arguments.getD ""
    let r := execute_validated_command v command
    (Except.ok (ToolOutput.execution r.1), r.2)
  else if name = "get_validation_stats" then
    (Except.ok (ToolOutput.stats (get_stats v)), v)
  else if name = "list_policies" then
    (Except.ok (ToolOutput.policies
      (POLICY_RULES.map fun p => (p.name, p.message, p.patterns.length))), v)
  else
    (Except.error ("Unknown tool: " ++ name), v)

/-- The validator operations a caller can interleave (claim C3). -/
inductive Op where
  | validate : String → Op
  | stats : Op

/-- Run one operation against the validator state.  `get_stats` reads the
state and returns it unchanged. -/
def runOp (v : CommandValidator) : Op → CommandValidator
  | .validate c => (validate_command v c).2
  | .stats => v

/-- Run a sequence of operations. -/
def runOps (v : CommandValidator) (ops : List Op) : CommandValidator :=
  ops.foldl runOp v

/-- Run a sequence of `validate_command` calls (claim C4). -/
def runValidates (v : CommandValidator) (cs : List String) : CommandValidator :=
  cs.foldl (fun v c => (validate_command v c).2) v

/-- The state invariant of claim C3: the violation counter counts exactly
the BLOCKED entries of the audit log. -/
def validatorInv (v : CommandValidator) : Prop :=
  v.violation_count = v.audit_log.countP (fun e => decide (e.status = AuditStatus.BLOCKED))

/-! ### Helper lemmas -/

theorem head_dropWhile_false (p : Char → Bool) :
    ∀ (l : List Char) (c : Char), (l.dropWhile p).head? = some c → p c = false := by
  intro l
  induction l with
  | nil => intro c h; simp [List.dropWhile] at h
  | cons x xs ih =>
    intro c h
    cases hx : p x with
    | true =>
      rw [List.dropWhile_cons] at h
      rw [hx] at h
      simp at h
      exact ih c h
    | false =>
      rw [List.dropWhile_cons] at h
      rw [hx] at h
      simp at h
      subst h
      exact hx

theorem dropWhile_eq_self_of_head (p : Char → Bool) (l : List Char)
    (h : ∀ c, l.head? = some c → p c = false) : l.dropWhile p = l := by
  cases l with
  | nil => rfl
  | cons x xs =>
    have hx := h x rfl
    simp [List.dropWhile_cons, hx]

theorem exists_append_dropWhile (p : Char → Bool) :
    ∀ l : List Char, ∃ t, l = t ++ l.dropWhile p := by
  intro l
  induction l with
  | nil => exact ⟨[], rfl⟩
  | cons x xs ih =>
    cases hx : p x with
    | true =>
      obtain ⟨t, ht⟩ := ih
      refine ⟨x :: t, ?_⟩
      rw [List.dropWhile_cons]
      rw [hx]
      simpa using ht
    | false =>
      refine ⟨[], ?_⟩
      rw [List.dropWhile_cons]
      rw [hx]
      simp

theorem stripChars_idem (l : List Char) : stripChars (stripChars l) = stripChars l := by
  have key : ∀ m : List Char,
      (∀ c, m.head? = some c → isPySpace c = false) →
      (∀ c, m.reverse.head? = some c → isPySpace c = false) →
      stripChars m = m := by
    intro m h1 h2
    unfold stripChars
    rw [dropWhile_eq_self_of_head _ _ h1, dropWhile_eq_self_of_head _ _ h2,
      List.reverse_reverse]
  apply key
  · intro c hc
    obtain ⟨t, ht⟩ := exists_append_dropWhile isPySpace (l.dropWhile isPySpace).reverse
    have hu : l.dropWhile isPySpace = stripChars l ++ t.reverse := by
      have h2 := congrArg List.reverse ht
      simpa [stripChars] using h2
    have hh : (l.dropWhile isPySpace).head? = some c := by
      cases hs : stripChars l with
      | nil => rw [hs] at hc; simp at hc
      | cons y ys =>
        rw [hs] at hc
        simp at hc
        subst hc
        rw [hu, hs]
        rfl
    exact head_dropWhile_false _ _ _ hh
  · intro c hc
    have hc2 : (((l.dropWhile isPySpace).reverse).dropWhile isPySpace).head? = some c := by
      rw [stripChars, List.reverse_reverse] at hc
      exact hc
    exact head_dropWhile_false _ _ _ hc2

theorem pyStrip_idem (s : String) : pyStrip (pyStrip s) = pyStrip s :=
  congrArg String.mk (stripChars_idem s.data)

theorem firstMatchIn_cons (c : String) (q : PatternDef) (rest : List PatternDef) :
    firstMatchIn c (q :: rest) =
      if reSearch q.re c then some q else firstMatchIn c rest := rfl

theorem firstMatchIn_eq_none (c : String) :
    ∀ ps : List PatternDef,
      firstMatchIn c ps = none ↔ ∀ pd ∈ ps, reSearch pd.re c = false := by
  intro ps
  induction ps with
  | nil => simp [firstMatchIn]
  | cons q rest ih =>
    cases hq : reSearch q.re c with
    | false =>
      rw [firstMatchIn_cons]
      rw [hq]
      simp only [if_false, Bool.false_eq_true]
      rw [ih]
      constructor
      · intro h pd hpd
        rcases List.mem_cons.mp hpd with rfl | hpd2
        · exact hq
        · exact h pd hpd2
      · intro h pd hpd
        exact h pd (List.mem_cons_of_mem q hpd)
    | true =>
      rw [firstMatchIn_cons]
      rw [hq]
      simp only [if_true]
      constructor
      · intro h
        simp at h
      · intro h
        have hfq := h q (List.mem_cons_self q rest)
        rw [hfq] at hq
        simp at hq

theorem firstMatchIn_eq_some (c : String) :
    ∀ (ps : List PatternDef) (pd : PatternDef), firstMatchIn c ps = some pd →
      ∃ j : Fin ps.length, ps.get j = pd ∧ reSearch pd.re c = true ∧
        ∀ j' : Fin ps.length, j'.val < j.val → reSearch (ps.get j').re c = false := by
  intro ps
  induction ps with
  | nil => intro pd h; simp [firstMatchIn] at h
  | cons q rest ih =>
    intro pd h
    rw [firstMatchIn_cons] at h
    cases hq : reSearch q.re c with
    | true =>
      rw [hq] at h
      simp only [if_true] at h
      injection h with h
      subst h
      exact ⟨⟨0, Nat.succ_pos _⟩, rfl, hq,
        fun j' hj' => absurd hj' (Nat.not_lt_zero _)⟩
    | false =>
      rw [hq] at h
      simp only [if_false, Bool.false_eq_true] at h
      obtain ⟨j, hget, hs, hfirst⟩ := ih pd h
      refine ⟨⟨j.val + 1, Nat.succ_lt_succ j.isLt⟩, hget, hs, ?_⟩
      intro j' hj'
      rcases j' with ⟨jv, hjlt⟩
      cases jv with
      | zero => exact hq
      | succ k =>
        exact hfirst ⟨k, Nat.lt_of_succ_lt_succ hjlt⟩ (Nat.lt_of_succ_lt_succ hj')

theorem firstPolicyMatch_cons (c : String) (pol : Policy) (rest : List Policy) :
    firstPolicyMatch c (pol :: rest) =
      match firstMatchIn c pol.patterns with
      | some pd => some (pol, pd)
      | none => firstPolicyMatch c rest := rfl

theorem firstPolicyMatch_cons_some (c : String) (pol : Policy) (rest : List Policy)
    (pd : PatternDef) (h : firstMatchIn c pol.patterns = some pd) :
    firstPolicyMatch c (pol :: rest) = some (pol, pd) := by
  rw [firstPolicyMatch_cons, h]

theorem firstPolicyMatch_cons_none (c : String) (pol : Policy) (rest : List Policy)
    (h : firstMatchIn c pol.patterns = none) :
    firstPolicyMatch c (pol :: rest) = firstPolicyMatch c rest := by
  rw [firstPolicyMatch_cons, h]

theorem firstPolicyMatch_eq_none (c : String) :
    ∀ L : List Policy, firstPolicyMatch c L = none ↔
      ∀ pol ∈ L, ∀ pd ∈ pol.patterns, reSearch pd.re c = false := by
  intro L
  induction L with
  | nil => simp [firstPolicyMatch]
  | cons q rest ih =>
    cases hm : firstMatchIn c q.patterns with
    | some pd =>
      rw [firstPolicyMatch_cons_some c q rest pd hm]
      constructor
      · intro h
        simp at h
      · intro h
        have hnone : firstMatchIn c q.patterns = none :=
          (firstMatchIn_eq_none c q.patterns).mpr (h q (List.mem_cons_self q rest))
        rw [hnone] at hm
        simp at hm
    | none =>
      rw [firstPolicyMatch_cons_none c q rest hm]
      rw [ih]
      constructor
      · intro h pol hpol
        rcases List.mem_cons.mp hpol with rfl | hpol2
        · exact (firstMatchIn_eq_none c pol.patterns).mp hm
        · exact h pol hpol2
      · intro h pol hpol
        exact h pol (List.mem_cons_of_mem q hpol)

theorem firstPolicyMatch_eq_some (c : String) :
    ∀ (L : List Policy) (pol : Policy) (pd : PatternDef),
      firstPolicyMatch c L = some (pol, pd) →
      ∃ i : Fin L.length, L.get i = pol ∧ firstMatchIn c pol.patterns = some pd ∧
        ∀ i' : Fin L.length, i'.val < i.val → firstMatchIn c (L.get i').patterns = none := by
  intro L
  induction L with
  | nil => intro pol pd h; simp [firstPolicyMatch] at h
  | cons q rest ih =>
    intro pol pd h
    cases hm : firstMatchIn c q.patterns with
    | some pd0 =>
      rw [firstPolicyMatch_cons_some c q rest pd0 hm] at h
      injection h with h
      injection h with h1 h2
      subst h1
      subst h2
      exact ⟨⟨0, Nat.succ_pos _⟩, rfl, hm,
        fun i' hi' => absurd hi' (Nat.not_lt_zero _)⟩
    | none =>
      rw [firstPolicyMatch_cons_none c q rest hm] at h
      obtain ⟨i, hget, hfm, hfirst⟩ := ih pol pd h
      refine ⟨⟨i.val + 1, Nat.succ_lt_succ i.isLt⟩, hget, hfm, ?_⟩
      intro i' hi'
      rcases i' with ⟨iv, hilt⟩
      cases iv with
      | zero => exact hm
      | succ k =>
        exact hfirst ⟨k, Nat.lt_of_succ_lt_succ hilt⟩ (Nat.lt_of_succ_lt_succ hi')

theorem validate_command_blocked_eq (v : CommandValidator) (c : String)
    (pol : Policy) (pd : PatternDef)
    (h : firstPolicyMatch (pyStrip c) POLICY_RULES = some (pol, pd)) :
    validate_command v c =
      ({ allowed := false, reason := pol.message, policy := some pol.name,
         pattern_matched := some pd.raw },
       { violation_count := v.violation_count + 1,
         audit_log := v.audit_log ++ [{ command := pyStrip c, policy := some pol.name,
                                        status := .BLOCKED }] }) := by
  simp only [validate_command, validate_commandWith, h]

theorem validate_command_allowed_eq (v : CommandValidator) (c : String)
    (h : firstPolicyMatch (pyStrip c) POLICY_RULES = none) :
    validate_command v c =
      ({ allowed := true, reason := "Command passed all policy checks",
         policy := none, pattern_matched := none },
       { violation_count := v.violation_count,
         audit_log := v.audit_log ++ [{ command := pyStrip c, policy := none,
                                        status := .ALLOWED }] }) := by
  simp only [validate_command, validate_commandWith, h]

/-- What claim C1 asserts about a blocked call: the reported policy is the
first (in declaration order) whose first (in list order) pattern matches,
the message and the literal pattern are the ones configured, the blocked
counter grows by one, and a tagged BLOCKED entry is appended. -/
def BlockedOutcome (v : CommandValidator) (c : String) : Prop :=
  (validate_command v c).1.allowed = false ∧
  ∃ i : Fin POLICY_RULES.length, ∃ j : Fin (POLICY_RULES.get i).patterns.length,
    reSearch ((POLICY_RULES.get i).patterns.get j).re (pyStrip c) = true ∧
    (∀ i' : Fin POLICY_RULES.length, i'.val < i.val →
      ∀ pd ∈ (POLICY_RULES.get i').patterns, reSearch pd.re (pyStrip c) = false) ∧
    (∀ j' : Fin (POLICY_RULES.get i).patterns.length, j'.val < j.val →
      reSearch ((POLICY_RULES.get i).patterns.get j').re (pyStrip c) = false) ∧
    (validate_command v c).1.policy = some (POLICY_RULES.get i).name ∧
    (validate_command v c).1.reason = (POLICY_RULES.get i).message ∧
    (validate_command v c).1.pattern_matched =
      some ((POLICY_RULES.get i).patterns.get j).raw ∧
    (validate_command v c).2.violation_count = v.violation_count + 1 ∧
    (validate_command v c).2.audit_log = v.audit_log ++
      [{ command := pyStrip c, policy := some (POLICY_RULES.get i).name,
         status := AuditStatus.BLOCKED }]

/-- C1: every command matching at least one pattern of some policy is
blocked, reporting the first matching policy in declaration order, its first
matching pattern in list order, that policy's message, the literal pattern;
the blocked counter grows by exactly 1 and a BLOCKED audit entry tagged with
the policy identifier is appended. -/
theorem validate_blocks_first_matching_policy (v : CommandValidator) (c : String)
    (h : ∃ pol ∈ POLICY_RULES, ∃ pd ∈ pol.patterns, reSearch pd.re (pyStrip c) = true) :
    BlockedOutcome v c := by
  have hne : firstPolicyMatch (pyStrip c) POLICY_RULES ≠ none := by
    intro hnone
    obtain ⟨pol, hpol, pd, hpd, hs⟩ := h
    have hf := (firstPolicyMatch_eq_none (pyStrip c) POLICY_RULES).mp hnone pol hpol pd hpd
    rw [hs] at hf
    simp at hf
  cases hm : firstPolicyMatch (pyStrip c) POLICY_RULES with
  | none => exact absurd hm hne
  | some q =>
    rcases q with ⟨pol, pd⟩
    obtain ⟨i, hget, hfm, hearlier⟩ := firstPolicyMatch_eq_some _ _ pol pd hm
    subst hget
    obtain ⟨j, hgetj, hs, hfirstj⟩ := firstMatchIn_eq_some _ _ pd hfm
    subst hgetj
    have he := validate_command_blocked_eq v c _ _ hm
    refine ⟨?_, i, j, hs, ?_, hfirstj, ?_, ?_, ?_, ?_, ?_⟩
    · rw [he]
    · intro i' hi' pd' hpd'
      exact (firstMatchIn_eq_none _ _).mp (hearlier i' hi') pd' hpd'
    · rw [he]
    · rw [he]
    · rw [he]
    · rw [he]
    · rw [he]

/-- Witness for C1 at the concrete blocked input `"rm -rf /"`. -/
theorem validate_blocks_first_matching_policy_witness :
    (∃ pol ∈ POLICY_RULES, ∃ pd ∈ pol.patterns,
      reSearch pd.re (pyStrip "rm -rf /") = true) ∧
    BlockedOutcome CommandValidator.start "rm -rf /" :=
  ⟨by decide,
   validate_blocks_first_matching_policy CommandValidator.start "rm -rf /" (by decide)⟩

/-- C2: every command matching no pattern of any policy is allowed with the
generic pass message and a null policy identifier, and exactly one ALLOWED
audit entry is appended (the log grows by exactly 1). -/
theorem validate_allows_unmatched_command (v : CommandValidator) (c : String)
    (h : ∀ pol ∈ POLICY_RULES, ∀ pd ∈ pol.patterns, reSearch pd.re (pyStrip c) = false) :
    (validate_command v c).1 =
      { allowed := true, reason := "Command passed all policy checks",
        policy := none, pattern_matched := none } ∧
    (validate_command v c).2.audit_log =
      v.audit_log ++ [{ command := pyStrip c, policy := none,
                        status := AuditStatus.ALLOWED }] ∧
    (validate_command v c).2.audit_log.length = v.audit_log.length + 1 := by
  have hm := (firstPolicyMatch_eq_none (pyStrip c) POLICY_RULES).mpr h
  have he := validate_command_allowed_eq v c hm
  rw [he]
  refine ⟨rfl, rfl, ?_⟩
  simp

/-- Witness for C2 at the concrete allowed input `"git status"`. -/
theorem validate_allows_unmatched_command_witness :
    (∀ pol ∈ POLICY_RULES, ∀ pd ∈ pol.patterns,
      reSearch pd.re (pyStrip "git status") = false) ∧
    ((validate_command CommandValidator.start "git status").1 =
      { allowed := true, reason := "Command passed all policy checks",
        policy := none, pattern_matched := none } ∧
    (validate_command CommandValidator.start "git status").2.audit_log =
      CommandValidator.start.audit_log ++
        [{ command := pyStrip "git status", policy := none,
           status := AuditStatus.ALLOWED }] ∧
    (validate_command CommandValidator.start "git status").2.audit_log.length =
      CommandValidator.start.audit_log.length + 1) :=
  ⟨by decide,
   validate_allows_unmatched_command CommandValidator.start "git status" (by decide)⟩

theorem validate_step_preserves_inv (v : CommandValidator) (c : String)
    (h : validatorInv v) : validatorInv (validate_command v c).2 := by
  rw [validatorInv] at h
  cases hm : firstPolicyMatch (pyStrip c) POLICY_RULES with
  | some q =>
    rcases q with ⟨pol, pd⟩
    rw [validatorInv, validate_command_blocked_eq v c pol pd hm]
    simp only [List.countP_append, List.countP_cons, List.countP_nil]
    simp
    omega
  | none =>
    rw [validatorInv, validate_command_allowed_eq v c hm]
    simp only [List.countP_append, List.countP_cons, List.countP_nil]
    simp
    omega

theorem runOps_preserves_inv : ∀ (ops : List Op) (v : CommandValidator),
    validatorInv v → validatorInv (runOps v ops) := by
  intro ops
  induction ops with
  | nil => intro v h; exact h
  | cons op rest ih =>
    intro v h
    cases op with
    | validate c => exact ih _ (validate_step_preserves_inv v c h)
    | stats => exact ih _ h

/-- C3: from the initial empty state, after any sequence of validate and
get_stats operations, the blocked counter equals the number of BLOCKED audit
entries and the reported total equals the audit-log length. -/
theorem validator_counter_log_invariant (ops : List Op) :
    validatorInv (runOps CommandValidator.start ops) ∧
    (get_stats (runOps CommandValidator.start ops)).total_commands =
      (runOps CommandValidator.start ops).audit_log.length := by
  refine ⟨runOps_preserves_inv ops CommandValidator.start ?_, rfl⟩
  rw [validatorInv]
  rfl

theorem validate_log_append (v : CommandValidator) (c : String) :
    ∃ e : AuditEntry, (validate_command v c).2.audit_log = v.audit_log ++ [e] := by
  cases hm : firstPolicyMatch (pyStrip c) POLICY_RULES with
  | some q =>
    rcases q with ⟨pol, pd⟩
    rw [validate_command_blocked_eq v c pol pd hm]
    exact ⟨_, rfl⟩
  | none =>
    rw [validate_command_allowed_eq v c hm]
    exact ⟨_, rfl⟩

theorem validate_log_length (v : CommandValidator) (c : String) :
    (validate_command v c).2.audit_log.length = v.audit_log.length + 1 := by
  obtain ⟨e, he⟩ := validate_log_append v c
  rw [he]
  simp

theorem runValidates_log_length : ∀ (cs : List String) (v : CommandValidator),
    (runValidates v cs).audit_log.length = v.audit_log.length + cs.length := by
  intro cs
  induction cs with
  | nil => intro v; rfl
  | cons c rest ih =>
    intro v
    have hstep : runValidates v (c :: rest) = runValidates (validate_command v c).2 rest := rfl
    rw [hstep, ih, validate_log_length]
    simp
    omega

/-- C4: every validate call appends exactly one audit entry, leaving the
existing entries untouched; N calls grow the log by exactly N, and after N
calls from the empty state `get_stats` reports `total_commands = N`. -/
theorem validate_appends_one_entry_per_call (v : CommandValidator) (c : String)
    (cs : List String) :
    (∃ e : AuditEntry, (validate_command v c).2.audit_log = v.audit_log ++ [e]) ∧
    (validate_command v c).2.audit_log.length = v.audit_log.length + 1 ∧
    (runValidates v cs).audit_log.length = v.audit_log.length + cs.length ∧
    (get_stats (runValidates CommandValidator.start cs)).total_commands = cs.length := by
  refine ⟨validate_log_append v c, validate_log_length v c,
    runValidates_log_length cs v, ?_⟩
  have h0 := runValidates_log_length cs CommandValidator.start
  show (runValidates CommandValidator.start cs).audit_log.length = cs.length
  rw [h0]
  simp [CommandValidator.start]

/-- C5: `get_stats` reports the audit-log length, the blocked counter,
allowed = total − blocked, and as `recent_log` the chronological suffix of
at most 10 most recent entries, without changing the validator state. -/
theorem get_stats_reports_state (v : CommandValidator) :
    (get_stats v).total_commands = v.audit_log.length ∧
    (get_stats v).blocked = v.violation_count ∧
    (get_stats v).allowed =
      ((get_stats v).total_commands : Int) - ((get_stats v).blocked : Int) ∧
    (get_stats v).recent_log = v.audit_log.drop (v.audit_log.length - 10) ∧
    (get_stats v).recent_log.length ≤ 10 ∧
    v.audit_log.take (v.audit_log.length - 10) ++ (get_stats v).recent_log = v.audit_log ∧
    runOp v Op.stats = v := by
  refine ⟨rfl, rfl, rfl, rfl, ?_, ?_, rfl⟩
  · have hr : (get_stats v).recent_log = v.audit_log.drop (v.audit_log.length - 10) := rfl
    rw [hr, List.length_drop]
    omega
  · have hr : (get_stats v).recent_log = v.audit_log.drop (v.audit_log.length - 10) := rfl
    rw [hr]
    exact List.take_append_drop _ _

/-- C6: the allowlist is never consulted: `validate_command` is constant in
the allowlist it could read, and its outcome is exactly determined by
whether some denylist pattern matches the stripped command — membership of
the base command in `ALLOWED_COMMANDS` plays no role. -/
theorem allowlist_never_consulted :
    (∀ (A : List String) (v : CommandValidator) (c : String),
      validate_commandWith A v c = validate_command v c) ∧
    (∀ (v : CommandValidator) (c : String),
      ((validate_command v c).1.allowed = true ↔
        firstPolicyMatch (pyStrip c) POLICY_RULES = none)) := by
  refine ⟨fun A v c => rfl, fun v c => ?_⟩
  cases hm : firstPolicyMatch (pyStrip c) POLICY_RULES with
  | some q =>
    rcases q with ⟨pol, pd⟩
    rw [validate_command_blocked_eq v c pol pd hm]
    simp
  | none =>
    rw [validate_command_allowed_eq v c hm]
    simp

/-- C7: `execute_validated_command` never executes anything: it reports
status blocked — with the command, the policy's reason and identifier —
exactly when validation refuses the command, and otherwise only a
simulated-output message; in both cases the state is the one validation
produced. -/
theorem execute_never_runs_commands (v : CommandValidator) (c : String) :
    ((execute_validated_command v c).1.status = ExecStatus.blocked ↔
      (validate_command v c).1.allowed = false) ∧
    (execute_validated_command v c).1.command = c ∧
    (execute_validated_command v c).1.reason =
      (if (validate_command v c).1.allowed then none
       else some (validate_command v c).1.reason) ∧
    (execute_validated_command v c).1.policy =
      (if (validate_command v c).1.allowed then none
       else (validate_command v c).1.policy) ∧
    (execute_validated_command v c).1.output =
      (if (validate_command v c).1.allowed
       then some ("[SIMULATED] Command \x27" ++ c ++ "\x27 would be executed here")
       else none) ∧
    (execute_validated_command v c).2 = (validate_command v c).2 := by
  cases hA : (validate_command v c).1.allowed with
  | false => simp [execute_validated_command, hA]
  | true => simp [execute_validated_command, hA]

/-- C8: the spec's concrete scenarios: `"rm -rf /"` is blocked under
`destructive_commands` by the pattern `\brm\s+-rf\s+/`, `"git status"` is
allowed with a null policy, and the empty string is allowed while the audit
log still grows by 1. -/
theorem concrete_scenarios_hold :
    (validate_command CommandValidator.start "rm -rf /").1 =
      { allowed := false, reason := "Destructive command blocked by ORG-SEC-001",
        policy := some "destructive_commands",
        pattern_matched := some "\\brm\\s+-rf\\s+/" } ∧
    (validate_command CommandValidator.start "git status").1 =
      { allowed := true, reason := "Command passed all policy checks",
        policy := none, pattern_matched := none } ∧
    (validate_command CommandValidator.start "").1.allowed = true ∧
    (validate_command CommandValidator.start "").2.audit_log.length =
      CommandValidator.start.audit_log.length + 1 :=
  ⟨by decide, by decide, by decide, by decide⟩

/-- C9: a tool name other than the four supported operations makes
`call_tool` report an error for that call (the source raises `ValueError`)
and leaves the validator state unchanged. -/
theorem unknown_tool_errors_state_unchanged (tool : String) (args : Option String)
    (v : CommandValidator)
    (h1 : tool ≠ "validate_command") (h2 : tool ≠ "execute_validated_command")
    (h3 : tool ≠ "get_validation_stats") (h4 : tool ≠ "list_policies") :
    call_tool tool args v = (Except.error ("Unknown tool: " ++ tool), v) := by
  simp [call_tool, h1, h2, h3, h4]

/-- Witness for C9 at the concrete unsupported tool name `"frobnicate"`. -/
theorem unknown_tool_errors_state_unchanged_witness :
    (("frobnicate" : String) ≠ "validate_command" ∧
     ("frobnicate" : String) ≠ "execute_validated_command" ∧
     ("frobnicate" : String) ≠ "get_validation_stats" ∧
     ("frobnicate" : String) ≠ "list_policies") ∧
    call_tool "frobnicate" none CommandValidator.start =
      (Except.error ("Unknown tool: " ++ "frobnicate"), CommandValidator.start) :=
  ⟨⟨by decide, by decide, by decide, by decide⟩,
   unknown_tool_errors_state_unchanged "frobnicate" none CommandValidator.start
     (by decide) (by decide) (by decide) (by decide)⟩

/-- C10: `validate_command` strips its input before matching and logging:
the call behaves exactly as on the stripped string, and the appended audit
entry records the stripped text. -/
theorem validate_strips_input (v : CommandValidator) (c : String) :
    validate_command v c = validate_command v (pyStrip c) ∧
    ∃ e : AuditEntry, (validate_command v c).2.audit_log = v.audit_log ++ [e] ∧
      e.command = pyStrip c := by
  constructor
  · show validate_commandWith ALLOWED_COMMANDS v c =
      validate_commandWith ALLOWED_COMMANDS v (pyStrip c)
    simp only [validate_commandWith, pyStrip_idem]
  · cases hm : firstPolicyMatch (pyStrip c) POLICY_RULES with
    | some q =>
      rcases q with ⟨pol, pd⟩
      rw [validate_command_blocked_eq v c pol pd hm]
      exact ⟨_, rfl, rfl⟩
    | none =>
      rw [validate_command_allowed_eq v c hm]
      exact ⟨_, rfl, rfl⟩

end Gatekeeper
